import Mathlib

/-
Verification of the drift-detection subsystem of cloudops-assistant.

The frontend display and polling logic is embedded directly from the
JavaScript sources under src/frontend.  The backend components (plan
parser, task tracker, plan/config stores, diff) are not shipped in this
repository snapshot; where a claim depends on them they are modelled
from the specification, and each such definition carries a doc comment
saying so.
-/

set_option maxRecDepth 100000

namespace CloudOps

/-- Substring test: true when pat occurs as a contiguous substring of s.
Embeds the JavaScript `String.prototype.includes` used throughout
src/frontend/shared/js/drift-detection.js. -/
def containsStr (s pat : String) : Bool :=
  decide (pat.data <:+: s.data)

/-- A plan record as consumed by the display helpers of
src/frontend/shared/js/drift-detection.js: the fields of the
`plan` objects from plan-history responses and of the `last_scan`
objects on drift configurations.  `timestamp` is an epoch-millisecond
value; a missing or empty (falsy) timestamp is `none`. -/
structure PlanInfo where
  timestamp : Option Int
  status : String
  plan_content : Option String
  drift_detected : Bool
deriving DecidableEq, Repr

/-- The fallback error test shared by getStatusText, getStatusClass and
getDriftStatusDisplay (src/frontend/shared/js/drift-detection.js lines
361, 444, 463): the JavaScript condition
`plan.plan_content && (includes 'error' || includes 'Error' || includes 'failed')`,
where a missing or empty string is falsy. -/
def contentMentionsFailure (pc : Option String) : Bool :=
  match pc with
  | none => false
  | some c =>
      !(c == "") && (containsStr c "error" || containsStr c "Error" || containsStr c "failed")

/-- getStatusText from src/frontend/shared/js/drift-detection.js lines 456-473. -/
def getStatusText (plan : PlanInfo) : String :=
  if plan.status == "error" then "❌ Error"
  else if contentMentionsFailure plan.plan_content then "❌ Error"
  else if plan.drift_detected && !(plan.status == "error") then "⚠️ Drift"
  else "✅ No Drift"

/-- getStatusClass from src/frontend/shared/js/drift-detection.js lines 437-454. -/
def getStatusClass (plan : PlanInfo) : String :=
  if plan.status == "error" then "error"
  else if contentMentionsFailure plan.plan_content then "error"
  else if plan.drift_detected && !(plan.status == "error") then "drift"
  else "no-drift"

/-- getDriftStatusDisplay from src/frontend/shared/js/drift-detection.js
lines 350-370; the argument is `repo.last_scan`, null when absent. -/
def getDriftStatusDisplay (lastScan : Option PlanInfo) : String :=
  match lastScan with
  | none => "⏳ Not scanned yet"
  | some ls =>
      if ls.status == "error" then "❌ Error"
      else if contentMentionsFailure ls.plan_content then "❌ Error"
      else if ls.drift_detected then "⚠️ Drift detected"
      else "✅ No drift"

/-- Milliseconds per day, the divisor 1000*60*60*24 of
src/frontend/shared/js/drift-detection.js line 339. -/
def msPerDay : Int := 1000 * 60 * 60 * 24

/-- Stand-in for the locale rendering `new Date(t).toLocaleString()` of
src/frontend/shared/js/drift-detection.js line 347: an injective rendering
of the epoch timestamp, distinct from the literal strings of the other
branches. -/
def toLocaleString (t : Int) : String :=
  "scanned-at " ++ toString t

/-- getLastCheckDisplay from src/frontend/shared/js/drift-detection.js
lines 331-348.  The JavaScript compares
`(now - scanDate) / msPerDay > 7` over reals, which is equivalent to
`now - t > 7 * msPerDay`; `now` is the current epoch time in
milliseconds. -/
def getLastCheckDisplay (now : Int) (lastScan : Option PlanInfo) : String :=
  match lastScan with
  | none => "Not yet scanned"
  | some ls =>
      match ls.timestamp with
      | none => "Not yet scanned"
      | some t =>
          if now - t > 7 * msPerDay then "Not yet scanned"
          else toLocaleString t

/-- Status classification of a plan run (spec §3: `ok | error | no_infra_files`). -/
inductive PlanRunStatus where
  | ok
  | error
  | no_infra_files
deriving DecidableEq, Repr

/-- Rendering of a PlanRunStatus as the status string stored on a PlanRun
record and consumed by the frontend display helpers. -/
def statusString : PlanRunStatus → String
  | .ok => "ok"
  | .error => "error"
  | .no_infra_files => "no_infra_files"

/-- Structured change summary returned by the plan parser (spec §4.1). -/
structure ChangeSummary where
  status : PlanRunStatus
  change_count : Nat
  items : List String
  drift_detected : Bool
  error_detail : Option String
deriving DecidableEq, Repr

/-- Terminal-escape stripper: drops ESC-initiated sequences up to and
including their terminating letter.  Worker for stripAnsi; the Bool is
true while inside an escape sequence. -/
def stripAnsiGo : Bool → List Char → List Char
  | _, [] => []
  | true, c :: cs => if c.isAlpha then stripAnsiGo false cs else stripAnsiGo true cs
  | false, c :: cs =>
      if c = Char.ofNat 27 then stripAnsiGo true cs else c :: stripAnsiGo false cs

/-- Modelled from the spec: §4.1 "Strips terminal color/escape codes";
the plan-parser lambda is not part of this repository snapshot. -/
def stripAnsi (s : String) : String :=
  ⟨stripAnsiGo false s.data⟩

/-- Modelled from the spec: §4.1 "the tool's standard per-resource action
markers (create/update/destroy/replace)", rendered as the planning tool's
standard per-resource phrases. -/
def changeMarkers : List String :=
  ["will be created", "will be updated", "will be destroyed", "must be replaced"]

/-- Modelled from the spec: §4.1 "tool-level error markers
(initialization failure, timeout markers)". -/
def errorMarkers : List String :=
  ["Error:", "initialization failed", "timeout"]

/-- Modelled from the spec: §4.1 the marker the tool prints when "the
working directory contains no infrastructure-definition files". -/
def noInfraMarker : String := "No Terraform configuration files"

/-- Worker for splitLines: acc holds the current line's characters in
reverse. -/
def splitLinesGo : List Char → List Char → List String
  | acc, [] => [⟨acc.reverse⟩]
  | acc, c :: cs =>
      if c = '\n' then ⟨acc.reverse⟩ :: splitLinesGo [] cs
      else splitLinesGo (c :: acc) cs

/-- Split a string into its newline-separated lines. -/
def splitLines (s : String) : List String :=
  splitLinesGo [] s.data

/-- True when s contains at least one of the given marker strings. -/
def hasAnyMarker (s : String) (pats : List String) : Bool :=
  pats.any (fun p => containsStr s p)

/-- A line is a per-resource change marker when it carries one of the
standard action phrases. -/
def isChangeMarkerLine (line : String) : Bool :=
  hasAnyMarker line changeMarkers

/-- The per-resource change-marker lines of a cleaned output. -/
def changeLines (cleaned : String) : List String :=
  (splitLines cleaned).filter isChangeMarkerLine

/-- Modelled from the spec: §4.1 parsePlanOutput — the plan-parser lambda
is not part of this repository snapshot.  Strips escape codes; if the
output carries tool-level error markers, returns status error with the
error text and drift_detected never set (errors take precedence over
heuristic change detection); if it signals an infrastructure-less
directory, returns no_infra_files; otherwise counts the per-resource
change markers and sets drift_detected = change_count > 0. -/
def parsePlanOutput (raw : String) : ChangeSummary :=
  let cleaned := stripAnsi raw
  if hasAnyMarker cleaned errorMarkers then
    { status := .error, change_count := 0, items := [],
      drift_detected := false, error_detail := some cleaned }
  else if containsStr cleaned noInfraMarker then
    { status := .no_infra_files, change_count := 0, items := [],
      drift_detected := false, error_detail := none }
  else
    let items := changeLines cleaned
    { status := .ok, change_count := items.length, items := items,
      drift_detected := decide (0 < items.length), error_detail := none }

/-- The PlanInfo record under which a parsed run is presented by the
frontend display helpers: status string from the parser's classification,
plan_content the captured raw output, drift flag from the parser. -/
def displayRecordOf (raw : String) : PlanInfo :=
  { timestamp := none,
    status := statusString (parsePlanOutput raw).status,
    plan_content := some raw,
    drift_detected := (parsePlanOutput raw).drift_detected }

/-- Lifecycle stages of an ExecutionTask (spec §3); the seven states also
appear verbatim in the statusMap of updateStatusTimeline,
src/frontend/apps/drift-detection/drift-detection.js lines 663-691. -/
inductive TaskState where
  | queued
  | starting
  | cloning
  | analyzing
  | planning
  | completed
  | failed
deriving DecidableEq, Repr

/-- Stage index of the defined ordering
queued < starting < cloning < analyzing < planning < completed, with
failed above every non-terminal stage (spec §4.2: failed is reachable
from any non-terminal state). -/
def stageIdx : TaskState → Nat
  | .queued => 0
  | .starting => 1
  | .cloning => 2
  | .analyzing => 3
  | .planning => 4
  | .completed => 5
  | .failed => 6

/-- Terminal states of the tracker (spec §3). -/
def isTerminalState (s : TaskState) : Bool :=
  s == .completed || s == .failed

/-- In-flight execution state of one task (spec §3, ExecutionTask). -/
structure ExecutionTask where
  state : TaskState
  message : String
  updated_at : Nat
deriving DecidableEq, Repr

/-- Failure modes of the tracker's advance operation (spec §4.2). -/
inductive AdvanceError where
  | invalidTransition
deriving DecidableEq, Repr

/-- Modelled from the spec: §4.2 Task Tracker advance — the tracker
lambda is not part of this repository snapshot.  An idempotent replay of
the current stage is an accepted no-op; once terminal the task is
immutable; a later-stage transition overwrites state/message/updated_at;
a transition into an earlier stage is rejected with InvalidTransition. -/
def advance (t : ExecutionTask) (new : TaskState) (msg : String) (now : Nat) :
    Except AdvanceError ExecutionTask :=
  if new = t.state then .ok t
  else if isTerminalState t.state then .error .invalidTransition
  else if stageIdx t.state < stageIdx new then .ok ⟨new, msg, now⟩
  else .error .invalidTransition

/-- One advance request: target stage, message, time. -/
structure AdvanceReq where
  newState : TaskState
  msg : String
  now : Nat
deriving DecidableEq, Repr

/-- The stored task after one advance request: the new record when the
transition is accepted, the unchanged record when it is rejected. -/
def applyAdvance (t : ExecutionTask) (r : AdvanceReq) : ExecutionTask :=
  match advance t r.newState r.msg r.now with
  | .ok t' => t'
  | .error _ => t

/-- The successive stored task records observed after each request of a
sequence of advance calls (not including the initial record). -/
def taskTrace (t : ExecutionTask) : List AdvanceReq → List ExecutionTask
  | [] => []
  | r :: rs =>
      let t' := applyAdvance t r
      t' :: taskTrace t' rs

/-- External calls emitted by the status poller; getTaskStatus is the
read-only GET of /drift/task-status, postTaskFailed stands for any
state-mutating call that would transition the task to failed (the source
never issues one). -/
inductive PollCall where
  | getTaskStatus (taskId : String)
  | postTaskFailed (taskId : String)
deriving DecidableEq, Repr

/-- Upper bound on poll attempts: maxPolls = 40 of pollForTaskStatus,
src/frontend/apps/drift-detection/drift-detection.js line 621. -/
def maxPolls : Nat := 40

/-- Poll cadence in milliseconds: the 30000 of the setInterval at
src/frontend/apps/drift-detection/drift-detection.js line 650. -/
def pollIntervalMs : Nat := 30000

/-- The poller observes a terminal state when the reported status is
completed or failed (src/frontend/apps/drift-detection/drift-detection.js
line 631). -/
def isTerminalStatus (s : String) : Bool :=
  s == "completed" || s == "failed"

/-- Outcome of one interval tick's status request in pollForTaskStatus
(src/frontend/apps/drift-detection/drift-detection.js lines 623-649):
the awaited API.get resolved with a status string, or it threw (non-ok
response or fetch failure), landing in the catch branch. -/
inductive TickResult where
  | got (status : String)
  | requestFailed
deriving DecidableEq, Repr

/-- Whether the interval body clears its interval at tick k (pollCount
equals k there, since every firing increments it first, source line 624).
Only a tick whose status request succeeds can stop the poller: on
success it stops on a terminal status (line 631) or on
pollCount ≥ maxPolls (line 641); when the request throws, the catch
branch (lines 646-649) only logs and appends a local timeline item, so
both checks are skipped and the interval keeps running. -/
def tickStops (k : Nat) : TickResult → Bool
  | .got s => isTerminalStatus s || decide (maxPolls ≤ k)
  | .requestFailed => false

/-- The poller is still active at interval tick k (the k-th firing of
the setInterval, k ≥ 1): no earlier tick from 1 on stopped it. -/
def pollsAtTick (result : Nat → TickResult) (k : Nat) : Bool :=
  decide (1 ≤ k) &&
    (List.range k).all (fun j => j == 0 || !(tickStops j (result j)))

/-- Delay of the one-off immediate status fetch of pollForTaskStatus
(source lines 652-660): it fires 2000 ms after submission, outside the
interval cadence, and never clears the interval. -/
def immediatePollDelayMs : Nat := 2000

/-- The external calls pollForTaskStatus has issued once nTicks interval
firings have elapsed: the one-off immediate status fetch plus one status
GET per active tick.  Every branch of the source — success, catch,
terminal stop and the give-up at the cap — touches only the local
timeline besides these reads, so no task-mutating call ever appears. -/
def pollCallsUpTo (result : Nat → TickResult) (taskId : String)
    (nTicks : Nat) : List PollCall :=
  PollCall.getTaskStatus taskId ::
    ((List.range (nTicks + 1)).filter (fun k => pollsAtTick result k)).map
      (fun _ => PollCall.getTaskStatus taskId)

/-- Wall-clock time of the k-th interval poll attempt: setInterval fires
every pollIntervalMs. -/
def pollAttemptTime (k : Nat) : Nat := pollIntervalMs * k

/-- A monitoring configuration (spec §3, DriftConfiguration). -/
structure DriftConfiguration where
  config_id : String
  owner : String
  target_name : String
  target_url : String
  schedule : String
  alert_email : Option String
deriving DecidableEq, Repr

/-- A persisted plan run (spec §3, PlanRun). -/
structure PlanRun where
  plan_id : String
  target_name : String
  timestamp : Nat
  raw_output : String
  change_count : Nat
  drift_detected : Bool
  status : PlanRunStatus
deriving DecidableEq, Repr

/-- Modelled from the spec: the Drift Configuration Store and the Plan
Store (spec §2, §6) — the store lambdas are not part of this repository
snapshot. -/
structure Store where
  configs : List DriftConfiguration
  runs : List PlanRun
deriving DecidableEq, Repr

/-- Failure modes of the control-plane operations (spec §7). -/
inductive OpError where
  | notFound
deriving DecidableEq, Repr

/-- Modelled from the spec: §6 `listMonitoring(owner)` returns the
owner's configurations. -/
def listMonitoring (s : Store) (owner : String) : List DriftConfiguration :=
  s.configs.filter (fun c => c.owner == owner)

/-- Modelled from the spec: §6 `deleteMonitoring(config_id)` — fails
NotFound for an unknown id, otherwise removes the configuration and
cascades to the PlanRuns whose target_name matches the deleted
configuration's target. -/
def deleteMonitoring (s : Store) (cid : String) : Except OpError Store :=
  match s.configs.find? (fun c => c.config_id == cid) with
  | none => .error .notFound
  | some cfg =>
      .ok { configs := s.configs.filter (fun c => !(c.config_id == cid)),
            runs := s.runs.filter (fun r => !(r.target_name == cfg.target_name)) }

/-- Modelled from the spec: §6 `updateMonitoring(config_id, schedule?)` —
fails NotFound if config_id is unknown, otherwise stores the submitted
schedule on that configuration (the operation contract names no other
failure mode). -/
def updateMonitoring (s : Store) (cid : String) (sched : String) :
    Except OpError Store :=
  if s.configs.any (fun c => c.config_id == cid) then
    .ok { s with
          configs := s.configs.map (fun c =>
            if c.config_id == cid then { c with schedule := sched } else c) }
  else .error .notFound

/-- The schedules the legacy edit flow treats as valid:
`validSchedules = ['hourly', 'daily', 'weekly']` of editDriftConfig,
src/frontend/js/drift-detection.js line 154. -/
def validSchedules : List String := ["hourly", "daily", "weekly"]

/-- Lowercase of a string, character by character: the JavaScript
`toLowerCase()` of editDriftConfig. -/
def lowerString (s : String) : String :=
  ⟨s.data.map Char.toLower⟩

/-- editDriftConfig of src/frontend/js/drift-detection.js lines 148-170
accepts a prompted schedule exactly when its lowercase form is in
validSchedules, and then submits the lowercase form to /drift/update. -/
def editDriftConfigAccepts (s : String) : Bool :=
  decide (lowerString s ∈ validSchedules)

/-- The schedule options offered by the shared module's edit dialog
select (src/frontend/shared/js/drift-detection.js lines 250-253). -/
def editScheduleOptions : List String := ["hourly", "daily"]

/-- Time-descending order on plan runs: a precedes b when a is at least
as recent. -/
def moreRecent (a b : PlanRun) : Prop := b.timestamp ≤ a.timestamp

instance : DecidableRel moreRecent := fun a b => Nat.decLe b.timestamp a.timestamp

instance : IsTotal PlanRun moreRecent :=
  ⟨fun a b => Nat.le_total b.timestamp a.timestamp⟩

instance : IsTrans PlanRun moreRecent :=
  ⟨fun _ _ _ h h' => Nat.le_trans h' h⟩

instance : IsRefl PlanRun moreRecent := ⟨fun a => Nat.le_refl a.timestamp⟩

/-- Modelled from the spec: §6 `listRunHistory(target_name)` returns the
target's PlanRuns time-descending (the Plan Store's secondary
time-ordered index per target_name). -/
def listRunHistory (s : Store) (target : String) : List PlanRun :=
  List.insertionSort moreRecent (s.runs.filter (fun r => r.target_name == target))

/-- One line of a computed diff: unchanged context, a removed line, or an
added line. -/
inductive DiffLine where
  | context (s : String)
  | removed (s : String)
  | added (s : String)
deriving DecidableEq, Repr

/-- Modelled from the spec: §4.1 diffPlans produces "a line-based unified
diff over the two raw_output fields" — the differ lambda is not part of
this repository snapshot.  Line-by-line comparison: equal heads give
context, differing heads give a removed/added pair, leftovers on either
side are wholly removed or added (empty input is a totally-added or
totally-removed set of lines). -/
def diffLines : List String → List String → List DiffLine
  | [], [] => []
  | [], b :: bs => .added b :: diffLines [] bs
  | a :: as, [] => .removed a :: diffLines as []
  | a :: as, b :: bs =>
      if a = b then .context a :: diffLines as bs
      else .removed a :: .added b :: diffLines as bs

/-- True for the diff lines that represent a change. -/
def isChangeLine : DiffLine → Bool
  | .context _ => false
  | .removed _ => true
  | .added _ => true

/-- Rendering of one diff line in unified notation. -/
def renderDiffLine : DiffLine → String
  | .context s => " " ++ s
  | .removed s => "-" ++ s
  | .added s => "+" ++ s

/-- Unified rendering of a computed diff: empty when no line changed,
otherwise the prefixed lines joined by newlines. -/
def renderDiff (ds : List DiffLine) : String :=
  if ds.all (fun d => !isChangeLine d) then ""
  else String.intercalate "\n" (ds.map renderDiffLine)

/-- Modelled from the spec: §4.1 diffPlans(older, newer) — the line-based
unified diff over the two raw_output fields. -/
def diffPlans (older newer : PlanRun) : String :=
  renderDiff (diffLines (splitLines older.raw_output) (splitLines newer.raw_output))

/-- C8: diffPlans applied to the same run on both sides yields an empty
diff. -/
theorem diffPlans_self_empty : ∀ p : PlanRun, diffPlans p p = "" := by
  have hdiff : ∀ l : List String, diffLines l l = l.map DiffLine.context := by
    intro l
    induction l with
    | nil => simp [diffLines]
    | cons a as ih => simp [diffLines, ih]
  intro p
  unfold diffPlans
  rw [hdiff]
  unfold renderDiff
  have hall : (((splitLines p.raw_output).map DiffLine.context).all
      (fun d => !isChangeLine d)) = true := by
    simp [List.all_eq_true, List.mem_map, isChangeLine]
  rw [if_pos hall]

/-- C9: for every displayed plan whose status field is not the string
error but whose plan_content contains one of the substrings error, Error
or failed, getStatusText and getStatusClass classify it as Error, and
getDriftStatusDisplay shows Error, never Drift, whatever the
drift_detected flag says. -/
theorem statusDisplays_error_fallback :
    ∀ p : PlanInfo, ¬ p.status = "error" →
      contentMentionsFailure p.plan_content = true →
      getStatusText p = "❌ Error" ∧ getStatusClass p = "error" ∧
      getDriftStatusDisplay (some p) = "❌ Error" := by
  intro p hs hc
  have hs' : (p.status == "error") = false := by
    simp only [beq_eq_false_iff_ne, ne_eq]
    exact hs
  refine ⟨?_, ?_, ?_⟩ <;> simp [getStatusText, getStatusClass, getDriftStatusDisplay, hs', hc]

/-- C9 witness: a run with status ok whose output merely mentions the
word failed is displayed as Error even though its drift flag is set. -/
theorem statusDisplays_error_fallback_witness :
    getStatusText ⟨none, "ok", some "resource creation failed", true⟩ = "❌ Error" ∧
    getStatusClass ⟨none, "ok", some "resource creation failed", true⟩ = "error" ∧
    getDriftStatusDisplay (some ⟨none, "ok", some "resource creation failed", true⟩) = "❌ Error" :=
  statusDisplays_error_fallback
    ⟨none, "ok", some "resource creation failed", true⟩ (by decide) (by decide)

/-- C10: a monitored repository whose last scan is more than 7 days old
is shown exactly as Not yet scanned, identically to a repository with no
scan at all, and its recorded timestamp is not rendered; a scan at most
7 days old is rendered with its timestamp. -/
theorem getLastCheckDisplay_seven_day_cutoff :
    ∀ (now : Int) (ls : PlanInfo) (t : Int), ls.timestamp = some t →
      (now - t > 7 * msPerDay →
        getLastCheckDisplay now (some ls) = "Not yet scanned" ∧
        getLastCheckDisplay now (some ls) = getLastCheckDisplay now none) ∧
      (¬ now - t > 7 * msPerDay →
        getLastCheckDisplay now (some ls) = toLocaleString t) := by
  intro now ls t ht
  refine ⟨fun h => ⟨?_, ?_⟩, fun h => ?_⟩ <;>
    simp [getLastCheckDisplay, ht, h]

/-- C10 witness: with the scan timestamp 100 and the current time one
millisecond past the 7-day window, the display is Not yet scanned; one
millisecond earlier it renders the timestamp. -/
theorem getLastCheckDisplay_seven_day_cutoff_witness :
    getLastCheckDisplay 604800101 (some ⟨some 100, "ok", none, false⟩) = "Not yet scanned" ∧
    getLastCheckDisplay 604800100 (some ⟨some 100, "ok", none, false⟩) = toLocaleString 100 :=
  ⟨((getLastCheckDisplay_seven_day_cutoff 604800101 ⟨some 100, "ok", none, false⟩ 100 rfl).1
      (by decide)).1,
    (getLastCheckDisplay_seven_day_cutoff 604800100 ⟨some 100, "ok", none, false⟩ 100 rfl).2
      (by decide)⟩

/-- C1: when the captured output carries both change markers and
tool-level error markers, the run is classified status = error with
drift_detected false (error classification takes precedence over
heuristic change detection), and the display helpers present it as
Error, never as Drift. -/
theorem parse_error_precedence :
    ∀ raw : String,
      hasAnyMarker (stripAnsi raw) changeMarkers = true →
      hasAnyMarker (stripAnsi raw) errorMarkers = true →
      (parsePlanOutput raw).status = PlanRunStatus.error ∧
      (parsePlanOutput raw).drift_detected = false ∧
      getStatusText (displayRecordOf raw) = "❌ Error" ∧
      getStatusClass (displayRecordOf raw) = "error" := by
  intro raw hc he
  have hp : parsePlanOutput raw =
      { status := .error, change_count := 0, items := [],
        drift_detected := false, error_detail := some (stripAnsi raw) } := by
    unfold parsePlanOutput
    simp [he]
  refine ⟨?_, ?_, ?_, ?_⟩ <;>
    simp [hp, displayRecordOf, getStatusText, getStatusClass, statusString]

/-- C1 witness: an output containing the timeout error marker and a
will-be-created change marker parses to an error with no drift and is
displayed as Error. -/
theorem parse_error_precedence_witness :
    (parsePlanOutput "Error: timeout\naws_instance.web will be created").status =
      PlanRunStatus.error ∧
    (parsePlanOutput "Error: timeout\naws_instance.web will be created").drift_detected =
      false ∧
    getStatusText (displayRecordOf "Error: timeout\naws_instance.web will be created") =
      "❌ Error" ∧
    getStatusClass (displayRecordOf "Error: timeout\naws_instance.web will be created") =
      "error" :=
  parse_error_precedence "Error: timeout\naws_instance.web will be created"
    (by decide) (by decide)

/-- C3: on an output with no error marker and no no-infra marker whose
cleaned text contains exactly k per-resource change-marker lines,
parsePlanOutput returns change_count = k and drift_detected exactly when
k is positive. -/
theorem parsePlanOutput_counts_changes :
    ∀ (raw : String) (k : Nat),
      hasAnyMarker (stripAnsi raw) errorMarkers = false →
      containsStr (stripAnsi raw) noInfraMarker = false →
      (changeLines (stripAnsi raw)).length = k →
      (parsePlanOutput raw).change_count = k ∧
      (parsePlanOutput raw).drift_detected = decide (0 < k) := by
  intro raw k he hn hk
  have hp : parsePlanOutput raw =
      { status := .ok, change_count := (changeLines (stripAnsi raw)).length,
        items := changeLines (stripAnsi raw),
        drift_detected := decide (0 < (changeLines (stripAnsi raw)).length),
        error_detail := none } := by
    unfold parsePlanOutput
    simp [he, hn]
  rw [hp, hk]
  exact ⟨rfl, rfl⟩

/-- C3 witness: an output with exactly two change-marker lines and no
error markers yields change_count 2 and drift_detected true. -/
theorem parsePlanOutput_counts_changes_witness :
    (parsePlanOutput "aws_instance.web will be updated\naws_s3_bucket.b will be destroyed\nPlan: 0 to add, 1 to change, 1 to destroy.").change_count = 2 ∧
    (parsePlanOutput "aws_instance.web will be updated\naws_s3_bucket.b will be destroyed\nPlan: 0 to add, 1 to change, 1 to destroy.").drift_detected = decide (0 < 2) :=
  parsePlanOutput_counts_changes
    "aws_instance.web will be updated\naws_s3_bucket.b will be destroyed\nPlan: 0 to add, 1 to change, 1 to destroy."
    2 (by decide) (by decide) (by decide)

/-- Applying one advance request never lowers the stored stage index. -/
theorem stageIdx_applyAdvance_le (t : ExecutionTask) (r : AdvanceReq) :
    stageIdx t.state ≤ stageIdx (applyAdvance t r).state := by
  unfold applyAdvance advance
  by_cases h1 : r.newState = t.state
  · simp [h1]
  · by_cases h2 : isTerminalState t.state
    · simp [h1, h2]
    · by_cases h3 : stageIdx t.state < stageIdx r.newState
      · simp [h1, h2, h3]
        exact Nat.le_of_lt h3
      · simp [h1, h2, h3]

/-- The stage indices along a trace of advance calls form a chain. -/
theorem taskTrace_chain (t : ExecutionTask) (reqs : List AdvanceReq) :
    List.Chain (fun a b => stageIdx a.state ≤ stageIdx b.state) t (taskTrace t reqs) := by
  induction reqs generalizing t with
  | nil => exact List.Chain.nil
  | cons r rs ih =>
      exact List.Chain.cons (stageIdx_applyAdvance_le t r) (ih (applyAdvance t r))

/-- C2: over any sequence of advance calls the observed states are
non-decreasing in the stage ordering; an advance into an earlier stage
is rejected with InvalidTransition and leaves the stored record
unchanged; a replay of the current stage is an accepted no-op. -/
theorem taskTracker_monotonic :
    ∀ (t : ExecutionTask) (reqs : List AdvanceReq),
      List.Chain (fun a b => stageIdx a.state ≤ stageIdx b.state) t (taskTrace t reqs) ∧
      (∀ r : AdvanceReq, stageIdx r.newState < stageIdx t.state →
        advance t r.newState r.msg r.now = Except.error AdvanceError.invalidTransition ∧
        applyAdvance t r = t) ∧
      (∀ (msg : String) (now : Nat), advance t t.state msg now = Except.ok t) := by
  intro t reqs
  refine ⟨taskTrace_chain t reqs, ?_, ?_⟩
  · intro r hlt
    have hne : r.newState ≠ t.state := by
      intro e
      rw [e] at hlt
      exact Nat.lt_irrefl _ hlt
    have hadv : advance t r.newState r.msg r.now =
        Except.error AdvanceError.invalidTransition := by
      unfold advance
      by_cases h2 : isTerminalState t.state
      · simp [hne, h2]
      · have h3 : ¬ stageIdx t.state < stageIdx r.newState := Nat.lt_asymm hlt
        simp [hne, h2, h3]
    exact ⟨hadv, by unfold applyAdvance; rw [hadv]⟩
  · intro msg now
    unfold advance
    simp

/-- C2 witness: a concrete happy-path run is monotone; advancing a
cloning task back to queued is rejected without mutating it, and a
replay of cloning is an accepted no-op. -/
theorem taskTracker_monotonic_witness :
    List.Chain (fun a b => stageIdx a.state ≤ stageIdx b.state)
      ⟨TaskState.queued, "q", 0⟩
      (taskTrace ⟨TaskState.queued, "q", 0⟩
        [⟨TaskState.starting, "s", 1⟩, ⟨TaskState.cloning, "c", 2⟩,
         ⟨TaskState.planning, "p", 3⟩, ⟨TaskState.completed, "done", 4⟩]) ∧
    advance ⟨TaskState.cloning, "c", 2⟩ TaskState.queued "back" 9 =
      Except.error AdvanceError.invalidTransition ∧
    applyAdvance ⟨TaskState.cloning, "c", 2⟩ ⟨TaskState.queued, "back", 9⟩ =
      ⟨TaskState.cloning, "c", 2⟩ ∧
    advance ⟨TaskState.cloning, "c", 2⟩ TaskState.cloning "again" 9 =
      Except.ok ⟨TaskState.cloning, "c", 2⟩ :=
  ⟨(taskTracker_monotonic ⟨TaskState.queued, "q", 0⟩
      [⟨TaskState.starting, "s", 1⟩, ⟨TaskState.cloning, "c", 2⟩,
       ⟨TaskState.planning, "p", 3⟩, ⟨TaskState.completed, "done", 4⟩]).1,
   ((taskTracker_monotonic ⟨TaskState.cloning, "c", 2⟩ []).2.1
      ⟨TaskState.queued, "back", 9⟩ (by decide)).1,
   ((taskTracker_monotonic ⟨TaskState.cloning, "c", 2⟩ []).2.1
      ⟨TaskState.queued, "back", 9⟩ (by decide)).2,
   (taskTracker_monotonic ⟨TaskState.cloning, "c", 2⟩ []).2.2 "again" 9⟩

/-- Characterization of an active tick: the poller still fires at tick
k exactly when k ≥ 1 and no earlier tick (from 1 on) stopped it. -/
theorem pollsAtTick_iff (result : Nat → TickResult) (k : Nat) :
    pollsAtTick result k = true ↔
      1 ≤ k ∧ ∀ j, 1 ≤ j → j < k → tickStops j (result j) = false := by
  unfold pollsAtTick
  rw [Bool.and_eq_true, decide_eq_true_eq, List.all_eq_true]
  constructor
  · rintro ⟨h1, h2⟩
    refine ⟨h1, fun j hj1 hjk => ?_⟩
    have hmem := h2 j (List.mem_range.mpr hjk)
    have hj0 : (j == 0) = false := by
      simp only [beq_eq_false_iff_ne, ne_eq]
      omega
    rw [hj0, Bool.false_or, Bool.not_eq_true'] at hmem
    exact hmem
  · rintro ⟨h1, h2⟩
    refine ⟨h1, fun j hj => ?_⟩
    rcases Nat.eq_zero_or_pos j with hj0 | hj0
    · subst hj0
      rfl
    · have := h2 j hj0 (List.mem_range.mp hj)
      simp [this]

/-- C4 counterexample: with every status request failing, the poller is
still active at interval tick maxPolls + 1 = 41, strictly beyond the
claimed 40-attempt bound.  The source's pollCount ≥ maxPolls check sits
inside the try block after the awaited GET, so a throwing request lands
in the catch branch, the check is skipped and the interval is never
cleared: under persistent request errors the number of poll attempts is
unbounded. -/
theorem poller_unbounded_on_errors :
    pollsAtTick (fun _ => TickResult.requestFailed) (maxPolls + 1) = true ∧
    maxPolls < maxPolls + 1 :=
  ⟨by decide, by decide⟩

/-- C4 amended: besides the one-off immediate status fetch 2000 ms after
submission (before the first 30000 ms interval tick), the interval
poller fires every 30000 ms; a tick whose status request succeeds stops
the poller at the first terminal status and otherwise gives up at the
pollCount ≥ 40 cap, while a tick whose request throws never stops it —
so when every status request succeeds no tick beyond the 40th fires,
every tick strictly before an active one saw a non-terminal status, and
all calls the poller ever emits are read-only status GETs: neither the
give-up branch nor the catch branch issues any task-mutating call. -/
theorem pollForTaskStatus_bounded_on_success :
    ∀ (statusAt : Nat → String) (taskId : String) (k : Nat),
      (pollsAtTick (fun j => TickResult.got (statusAt j)) k = true → k ≤ maxPolls) ∧
      (pollsAtTick (fun j => TickResult.got (statusAt j)) k = true →
        ∀ j, 1 ≤ j → j < k → isTerminalStatus (statusAt j) = false) ∧
      (∀ s, isTerminalStatus s = true → tickStops k (TickResult.got s) = true) ∧
      (tickStops k TickResult.requestFailed = false) ∧
      (∀ c ∈ pollCallsUpTo (fun j => TickResult.got (statusAt j)) taskId k,
        c = PollCall.getTaskStatus taskId) ∧
      immediatePollDelayMs < pollAttemptTime 1 ∧
      (pollAttemptTime (k + 1) = pollAttemptTime k + pollIntervalMs) := by
  intro statusAt taskId k
  refine ⟨?_, ?_, ?_, rfl, ?_, by decide, ?_⟩
  · intro h
    by_contra hk
    push_neg at hk
    obtain ⟨-, h2⟩ := (pollsAtTick_iff _ _).mp h
    have h40 := h2 maxPolls (by decide) hk
    have hstop : tickStops maxPolls (TickResult.got (statusAt maxPolls)) = true := by
      simp [tickStops]
    simp [hstop] at h40
  · intro h j hj1 hjk
    obtain ⟨-, h2⟩ := (pollsAtTick_iff _ _).mp h
    have := h2 j hj1 hjk
    simp [tickStops] at this
    exact this.1
  · intro s hs
    simp [tickStops, hs]
  · intro c hc
    rcases List.mem_cons.mp hc with h | h
    · exact h
    · obtain ⟨a, -, ha⟩ := List.mem_map.mp h
      exact ha.symm
  · unfold pollAttemptTime
    ring

/-- C4 amended witness: under an error-free status endpoint that reports
completed from tick 3 on, tick 3 is active and its index is within the
40 cap, tick 1 saw a non-terminal status, a terminal status stops a
successful tick while a failing request stops nothing, and the cadence
steps by 30000 ms. -/
theorem pollForTaskStatus_bounded_on_success_witness :
    (3 : Nat) ≤ maxPolls ∧
    isTerminalStatus ((fun j => if 3 ≤ j then "completed" else "running") 1) = false ∧
    tickStops 3 (TickResult.got "completed") = true ∧
    tickStops 3 TickResult.requestFailed = false ∧
    pollAttemptTime 2 = pollAttemptTime 1 + pollIntervalMs :=
  ⟨(pollForTaskStatus_bounded_on_success
      (fun j => if 3 ≤ j then "completed" else "running") "task-1" 3).1 (by decide),
   (pollForTaskStatus_bounded_on_success
      (fun j => if 3 ≤ j then "completed" else "running") "task-1" 3).2.1
     (by decide) 1 (by decide) (by decide),
   (pollForTaskStatus_bounded_on_success
      (fun j => if 3 ≤ j then "completed" else "running") "task-1" 3).2.2.1
     "completed" (by decide),
   (pollForTaskStatus_bounded_on_success
      (fun j => if 3 ≤ j then "completed" else "running") "task-1" 3).2.2.2.1,
   (pollForTaskStatus_bounded_on_success
      (fun j => if 3 ≤ j then "completed" else "running") "task-1" 1).2.2.2.2.2.2⟩

/-- A concrete monitored configuration with the schedule daily. -/
def c5Config : DriftConfiguration :=
  ⟨"cfg1", "alice", "repo-a", "https://example.com/repo-a", "daily", none⟩

/-- A store holding only c5Config. -/
def c5Store : Store := ⟨[c5Config], []⟩

/-- c5Config after an update to the schedule weekly. -/
def c5ConfigW : DriftConfiguration :=
  ⟨"cfg1", "alice", "repo-a", "https://example.com/repo-a", "weekly", none⟩

/-- c5Store after the weekly update. -/
def c5StoreW : Store := ⟨[c5ConfigW], []⟩

/-- C5 counterexample: the legacy editDriftConfig accepts the schedule
Weekly, submits its lowercase form, and the update succeeds and stores
the schedule weekly, which is neither hourly nor daily — so the schedule
field is not confined to the two-element enum. -/
theorem schedule_enum_counterexample :
    editDriftConfigAccepts "Weekly" = true ∧
    updateMonitoring c5Store "cfg1" (lowerString "Weekly") = Except.ok c5StoreW ∧
    c5ConfigW ∈ c5StoreW.configs ∧
    ¬ (c5ConfigW.schedule = "hourly" ∨ c5ConfigW.schedule = "daily") :=
  ⟨by decide, by rfl, by decide, by decide⟩

/-- C5 amended: the shared module's edit dialog offers only hourly and
daily, but the legacy editDriftConfig validates against the three-element
set hourly, daily, weekly; any update whose schedule passed that
validation keeps every stored schedule within that three-element set
(weekly included), not within the two-element enum. -/
theorem schedule_within_accepted_set :
    (∀ o ∈ editScheduleOptions, o ∈ validSchedules) ∧
    ∀ (s : Store) (cid sched : String) (s' : Store),
      (∀ c ∈ s.configs, c.schedule ∈ validSchedules) →
      editDriftConfigAccepts sched = true →
      updateMonitoring s cid (lowerString sched) = Except.ok s' →
      ∀ c ∈ s'.configs, c.schedule ∈ validSchedules := by
  refine ⟨by decide, ?_⟩
  intro s cid sched s' hall hacc hupd c hc
  have hmem : lowerString sched ∈ validSchedules := of_decide_eq_true hacc
  unfold updateMonitoring at hupd
  split at hupd
  · cases hupd
    rcases List.mem_map.mp hc with ⟨a, ha, hfa⟩
    by_cases hid : (a.config_id == cid) = true
    · rw [if_pos hid] at hfa
      rw [← hfa]
      exact hmem
    · rw [if_neg hid] at hfa
      rw [← hfa]
      exact hall a ha
  · cases hupd

/-- C5 amended witness: after the concrete weekly update, the stored
configuration's schedule lies in the accepted three-element set. -/
theorem schedule_within_accepted_set_witness :
    c5ConfigW.schedule ∈ validSchedules :=
  schedule_within_accepted_set.2 c5Store "cfg1" "Weekly" c5StoreW
    (by decide) (by decide) (by rfl) c5ConfigW (by decide)

/-- C6: deleting a configuration by config_id removes it from every
listMonitoring result, removes every PlanRun whose target_name matches
the deleted configuration's target, and leaves that target's run history
empty. -/
theorem deleteMonitoring_cascades :
    ∀ (s : Store) (cid : String) (cfg : DriftConfiguration) (s' : Store),
      s.configs.find? (fun c => c.config_id == cid) = some cfg →
      deleteMonitoring s cid = Except.ok s' →
      (∀ owner c, c ∈ listMonitoring s' owner → ¬ c.config_id = cid) ∧
      (∀ c ∈ s'.configs, ¬ c.config_id = cid) ∧
      (∀ r ∈ s'.runs, ¬ r.target_name = cfg.target_name) ∧
      listRunHistory s' cfg.target_name = [] := by
  intro s cid cfg s' hfind hdel
  unfold deleteMonitoring at hdel
  rw [hfind] at hdel
  cases hdel
  have hconf : ∀ c ∈ s.configs.filter (fun c => !(c.config_id == cid)),
      ¬ c.config_id = cid := by
    intro c hcmem
    have h := (List.mem_filter.mp hcmem).2
    simpa using h
  have hruns : ∀ r ∈ s.runs.filter (fun r => !(r.target_name == cfg.target_name)),
      ¬ r.target_name = cfg.target_name := by
    intro r hrmem
    have h := (List.mem_filter.mp hrmem).2
    simpa using h
  refine ⟨?_, hconf, hruns, ?_⟩
  · intro owner c hc
    exact hconf c (List.mem_filter.mp hc).1
  · unfold listRunHistory
    have hnil : (s.runs.filter (fun r => !(r.target_name == cfg.target_name))).filter
        (fun r => r.target_name == cfg.target_name) = [] := by
      rw [List.filter_eq_nil_iff]
      intro r hrmem hbeq
      exact hruns r hrmem (by simpa using hbeq)
    rw [hnil]
    rfl

/-- C6 witness: with one configuration for target tgt and runs for tgt
and other, the delete leaves the surviving run off the deleted target
and an empty history for tgt. -/
theorem deleteMonitoring_cascades_witness :
    listRunHistory ⟨[], [⟨"p2", "other", 6, "", 0, false, .ok⟩]⟩
      (DriftConfiguration.target_name ⟨"cfgX", "alice", "tgt", "u", "daily", none⟩) = [] ∧
    ¬ PlanRun.target_name ⟨"p2", "other", 6, "", 0, false, .ok⟩ =
      DriftConfiguration.target_name ⟨"cfgX", "alice", "tgt", "u", "daily", none⟩ :=
  ⟨(deleteMonitoring_cascades
      ⟨[⟨"cfgX", "alice", "tgt", "u", "daily", none⟩],
       [⟨"p1", "tgt", 5, "", 0, false, .ok⟩, ⟨"p2", "other", 6, "", 0, false, .ok⟩]⟩
      "cfgX" ⟨"cfgX", "alice", "tgt", "u", "daily", none⟩
      ⟨[], [⟨"p2", "other", 6, "", 0, false, .ok⟩]⟩ (by rfl) (by rfl)).2.2.2,
   (deleteMonitoring_cascades
      ⟨[⟨"cfgX", "alice", "tgt", "u", "daily", none⟩],
       [⟨"p1", "tgt", 5, "", 0, false, .ok⟩, ⟨"p2", "other", 6, "", 0, false, .ok⟩]⟩
      "cfgX" ⟨"cfgX", "alice", "tgt", "u", "daily", none⟩
      ⟨[], [⟨"p2", "other", 6, "", 0, false, .ok⟩]⟩ (by rfl) (by rfl)).2.2.1
     ⟨"p2", "other", 6, "", 0, false, .ok⟩ (by decide)⟩

/-- C7: listRunHistory returns exactly the target's runs, sorted
time-descending, so every returned run's timestamp is at most the head's
timestamp. -/
theorem listRunHistory_time_descending :
    ∀ (s : Store) (target : String),
      List.Sorted moreRecent (listRunHistory s target) ∧
      (∀ r ∈ listRunHistory s target, r.target_name = target) ∧
      (∀ r : PlanRun, r ∈ listRunHistory s target ↔
        r ∈ s.runs ∧ r.target_name = target) ∧
      (∀ hd, (listRunHistory s target).head? = some hd →
        ∀ r ∈ listRunHistory s target, r.timestamp ≤ hd.timestamp) := by
  intro s target
  have hsorted : List.Sorted moreRecent (listRunHistory s target) :=
    List.sorted_insertionSort moreRecent _
  have hmem : ∀ r : PlanRun, r ∈ listRunHistory s target ↔
      r ∈ s.runs ∧ r.target_name = target := by
    intro r
    unfold listRunHistory
    rw [(List.perm_insertionSort moreRecent _).mem_iff, List.mem_filter]
    simp
  refine ⟨hsorted, fun r hr => ((hmem r).mp hr).2, hmem, ?_⟩
  intro hd hhd r hr
  cases hlist : listRunHistory s target with
  | nil =>
      rw [hlist] at hhd
      exact absurd hhd (by simp)
  | cons x xs =>
      rw [hlist] at hhd hr
      rw [hlist] at hsorted
      have hx : x = hd := by simpa using hhd
      subst hx
      rcases List.mem_cons.mp hr with h | h
      · rw [h]
      · exact List.rel_of_sorted_cons hsorted r h

/-- C7 witness: on a store with runs for target t at times 5 and 9 and
an unrelated run, the head of the history for t is the time-9 run and
the time-5 run's timestamp is bounded by it. -/
theorem listRunHistory_time_descending_witness :
    PlanRun.timestamp ⟨"p1", "t", 5, "", 0, false, .ok⟩ ≤
      PlanRun.timestamp ⟨"p2", "t", 9, "", 0, false, .ok⟩ :=
  (listRunHistory_time_descending
      ⟨[], [⟨"p1", "t", 5, "", 0, false, .ok⟩, ⟨"p2", "t", 9, "", 0, false, .ok⟩,
            ⟨"p3", "u", 7, "", 0, false, .ok⟩]⟩ "t").2.2.2
    ⟨"p2", "t", 9, "", 0, false, .ok⟩ (by rfl)
    ⟨"p1", "t", 5, "", 0, false, .ok⟩ (by decide)

end CloudOps
